import Mathlib

/-!
Verification of the group store (`src/lib/db/group-store.ts`).

Shallow embedding of the Knex-backed `GroupStore` class and of the storage
behaviour it relies on.  The database is a record of three tables (`groups`,
`group_user`, `users`); every SQL statement issued by the store is one
`statement` step.  The persistence gateway may fail with a connectivity
error; this is modelled by a fault schedule (one `Bool` per statement,
`false` meaning the gateway is unreachable for that statement).
`Knex.transaction` is the `transaction` combinator: if the body fails, the
database is rolled back to its state at transaction entry.
-/

namespace Unleash

/-- Error kinds surfaced by the store (NotFound from `notfound-error`,
constraint violations and connectivity failures from the storage layer). -/
inductive DBError where
  | notFound (msg : String)
  | constraintViolation
  | connectivity
deriving DecidableEq

/-- A row of the `groups` table (columns `id`, `name`, `description`,
`created_at`, `created_by`).  `created_at` is filled by a storage default
that is outside this excerpt, hence `Option`. -/
structure GroupRow where
  id : Nat
  name : String
  description : Option String
  created_at : Option Nat
  created_by : Option String
deriving DecidableEq

/-- A row of the `group_user` association table (columns `group_id`,
`user_id`, `type`, `created_by`). -/
structure GroupUserRow where
  group_id : Nat
  user_id : Nat
  type : String
  created_by : String
deriving DecidableEq

/-- The database state: the three tables touched by the store, plus the
next system-assigned group identifier. -/
structure DB where
  groups : List GroupRow
  groupUser : List GroupUserRow
  users : List Nat
  nextId : Nat
deriving DecidableEq

/-- The world a store call runs in: the database plus the gateway fault
schedule (each statement consumes one entry; `false` = connectivity
failure; an exhausted schedule means a healthy gateway). -/
structure World where
  db : DB
  faults : List Bool
deriving DecidableEq

/-- The domain object built by `rowToGroup` (the `Group` class). -/
structure Group where
  id : Nat
  name : String
  description : Option String
  createdAt : Option Nat
  createdBy : Option String
deriving DecidableEq

/-- Modelled from the spec: the store-level group input (`IStoreGroup`,
whose declaration is not part of this excerpt).  Per the spec's data model
a group carries a name, an optional description and a creator identifier. -/
structure IStoreGroup where
  name : String
  description : Option String
  createdBy : Option String
deriving DecidableEq

/-- The group model passed to `update` (`IGroupModel`): identifier plus the
mutable fields. -/
structure IGroupModel where
  id : Nat
  name : String
  description : Option String
deriving DecidableEq

/-- A user reference (`IUser`); `addNewUsersToGroup` reads `user.user.id`. -/
structure IUser where
  id : Nat
deriving DecidableEq

/-- An entry of the add set (`IGroupUserModel`): a user plus the membership
type. -/
structure IGroupUserModel where
  user : IUser
  type : String
deriving DecidableEq

/-- An entry of the remove set (`IGroupUser`): the (group, user) pair plus
the membership type. -/
structure IGroupUser where
  groupId : Nat
  userId : Nat
  type : String
deriving DecidableEq

/-- One SQL statement against the gateway: consumes one fault-schedule
entry; a `false` entry makes it fail with a connectivity error and leave
the database untouched.  A failing statement (constraint violation) also
leaves the database untouched (statement-level atomicity). -/
def statement (f : DB → Except DBError (α × DB)) (w : World) :
    Except DBError α × World :=
  if w.faults.head? == some false then
    (.error .connectivity, ⟨w.db, w.faults.tail⟩)
  else
    match f w.db with
    | .ok (a, db') => (.ok a, ⟨db', w.faults.tail⟩)
    | .error e => (.error e, ⟨w.db, w.faults.tail⟩)

/-- Knex `db.transaction(...)`: run the body; if it fails, roll the
database back to its state at transaction entry. -/
def transaction (body : World → Except DBError α × World) (w : World) :
    Except DBError α × World :=
  match body w with
  | (.ok a, w') => (.ok a, w')
  | (.error e, w') => (.error e, ⟨w.db, w'.faults⟩)

/-- Source `rowToGroup`: mapping of a (possibly absent) `groups` row to a
`Group`; throws `NotFoundError('No group found')` on an absent row. -/
def rowToGroup : Option GroupRow → Except DBError Group
  | none => .error (.notFound "No group found")
  | some row => .ok ⟨row.id, row.name, row.description,
      row.created_at, row.created_by⟩

/-- Source `rowToGroupUser`: mapping of a (possibly absent) join row to an
`IGroupUser`. -/
def rowToGroupUser : Option GroupUserRow → Except DBError IGroupUser
  | none => .error (.notFound "No group user found")
  | some row => .ok ⟨row.group_id, row.user_id, row.type⟩

/-- Source `groupToRow`: projection of a store group onto the columns
written at creation — only `name` and `description`. -/
def groupToRow (user : IStoreGroup) : String × Option String :=
  (user.name, user.description)

/-- No two rows of a batch share a (group, user) pair. -/
def guPairsNodup : List GroupUserRow → Bool
  | [] => true
  | r :: rest =>
    !(rest.any fun e => e.group_id == r.group_id && e.user_id == r.user_id)
      && guPairsNodup rest

/-- Modelled from the spec: the storage schema is not part of this excerpt;
per the spec, the `group_user` table enforces at most one association per
(group, user) pair and references the `groups` and `users` tables by
foreign key.  This predicate says a batch of rows can be inserted without a
constraint violation. -/
def guInsertOk (db : DB) (rows : List GroupUserRow) : Bool :=
  (rows.all fun r =>
    db.groups.any (fun g => g.id == r.group_id)
      && db.users.contains r.user_id
      && !(db.groupUser.any fun e =>
            e.group_id == r.group_id && e.user_id == r.user_id))
    && guPairsNodup rows

namespace GroupStore

/-- SQL statement issued by `update`: UPDATE `groups` by identifier with
`RETURNING` of the updated rows. -/
def updateStmt (group : IGroupModel) (db : DB) :
    Except DBError (List GroupRow × DB) :=
  .ok ((db.groups.map fun r =>
          if r.id == group.id then
            { r with name := group.name, description := group.description }
          else r).filter (fun r => r.id == group.id),
       { db with groups := db.groups.map fun r =>
          if r.id == group.id then
            { r with name := group.name, description := group.description }
          else r })

/-- Method `update`: one UPDATE statement on `groups` with `RETURNING`,
then `rowToGroup(rows[0])`. -/
def update (group : IGroupModel) (w : World) : Except DBError Group × World :=
  match statement (updateStmt group) w with
  | (.ok rows, w') => (rowToGroup rows.head?, w')
  | (.error e, w') => (.error e, w')

/-- Method `getAllUsersByGroups`: one SELECT joining `group_user` with
`users`, filtered by `whereIn('gu.group_id', groupIds)`. -/
def getAllUsersByGroups (groupIds : List Nat) (w : World) :
    Except DBError (List IGroupUser) × World :=
  statement (fun db =>
    .ok ((db.groupUser.filter fun r =>
            groupIds.contains r.group_id && db.users.contains r.user_id).map
          (fun r => (⟨r.group_id, r.user_id, r.type⟩ : IGroupUser)), db)) w

/-- Method `getAll`: one SELECT of every `groups` row, mapped by
`rowToGroup`. -/
def getAll (w : World) : Except DBError (List Group) × World :=
  let (res, w') := statement (fun db => .ok (db.groups, db)) w
  match res with
  | .ok rows =>
    ((rows.mapM fun r => rowToGroup (some r)), w')
  | .error e => (.error e, w')

/-- Method `delete`: one DELETE on `groups` by identifier. -/
def delete (id : Nat) (w : World) : Except DBError Unit × World :=
  statement (fun db =>
    .ok ((), { db with groups := db.groups.filter fun r => !(r.id == id) })) w

/-- Method `deleteAll`: one DELETE of every `groups` row. -/
def deleteAll (w : World) : Except DBError Unit × World :=
  statement (fun db => .ok ((), { db with groups := [] })) w

/-- Method `exists`: one raw `SELECT EXISTS` on `groups` by identifier. -/
def «exists» (id : Nat) (w : World) : Except DBError Bool × World :=
  statement (fun db => .ok (db.groups.any fun r => r.id == id, db)) w

/-- Method `existsWithName`: one raw `SELECT EXISTS` on `groups` by
name. -/
def existsWithName (name : String) (w : World) : Except DBError Bool × World :=
  statement (fun db => .ok (db.groups.any fun r => r.name == name, db)) w

/-- SQL statement issued by `get`: SELECT the first `groups` row with the
identifier. -/
def getStmt (id : Nat) (db : DB) : Except DBError (Option GroupRow × DB) :=
  .ok (db.groups.find? fun r => r.id == id, db)

/-- Method `get`: one SELECT of the first `groups` row with the
identifier, mapped by `rowToGroup`. -/
def get (id : Nat) (w : World) : Except DBError Group × World :=
  match statement (getStmt id) w with
  | (.ok row, w') => (rowToGroup row, w')
  | (.error e, w') => (.error e, w')

/-- SQL statement issued by `create`: INSERT `groupToRow(group)` into
`groups` with `RETURNING *`; the storage layer assigns the identifier,
fills the audit columns from defaults, and rejects a duplicate name. -/
def createStmt (group : IStoreGroup) (db : DB) :
    Except DBError (List GroupRow × DB) :=
  if db.groups.any (fun g => g.name == (groupToRow group).1) then
    .error .constraintViolation
  else
    .ok ([⟨db.nextId, (groupToRow group).1, (groupToRow group).2, none, none⟩],
         { db with
            groups := db.groups
              ++ [⟨db.nextId, (groupToRow group).1, (groupToRow group).2,
                    none, none⟩],
            nextId := db.nextId + 1 })

/-- Method `create`: one INSERT into `groups`, then `rowToGroup(row[0])`
on the returned row. -/
def create (group : IStoreGroup) (w : World) : Except DBError Group × World :=
  match statement (createStmt group) w with
  | (.ok rows, w') => (rowToGroup rows.head?, w')
  | (.error e, w') => (.error e, w')

/-- The rows built by `addNewUsersToGroup` before the batch insert: one per
entry of `users`, stamped with the actor as `created_by`. -/
def addRows (groupId : Nat) (users : List IGroupUserModel)
    (userName : String) : List GroupUserRow :=
  users.map fun user => ⟨groupId, user.user.id, user.type, userName⟩

/-- Method `addNewUsersToGroup`: map every entry to a `group_user` row,
then one
`batchInsert` statement (against the supplied transaction when inside
`updateGroupUsers`, else the top-level connection). -/
def addNewUsersToGroup (groupId : Nat) (users : List IGroupUserModel)
    (userName : String) (w : World) : Except DBError Unit × World :=
  statement (fun db =>
    if guInsertOk db (addRows groupId users userName) then
      .ok ((), { db with groupUser :=
                  db.groupUser ++ addRows groupId users userName })
    else .error .constraintViolation) w

/-- Method `deleteOldUsersFromGroup`: one DELETE on `group_user` with
`whereIn(['group_id','user_id'], pairs)` — every row whose (group, user)
pair matches some entry of `deletableUsers` is removed. -/
def deleteOldUsersFromGroup (deletableUsers : List IGroupUser) (w : World) :
    Except DBError Unit × World :=
  statement (fun db =>
    .ok ((), { db with groupUser := db.groupUser.filter fun r =>
                  !((deletableUsers.map fun user =>
                      (user.groupId, user.userId)).contains
                    (r.group_id, r.user_id)) })) w

/-- The closure `updateGroupUsers` hands to `db.transaction`: run
`addNewUsersToGroup` then `deleteOldUsersFromGroup` against the
transaction handle. -/
def updateGroupUsersTx (groupId : Nat) (newUsers : List IGroupUserModel)
    (deletableUsers : List IGroupUser) (userName : String) (w0 : World) :
    Except DBError Unit × World :=
  match addNewUsersToGroup groupId newUsers userName w0 with
  | (.ok _, w1) => deleteOldUsersFromGroup deletableUsers w1
  | (.error e, w1) => (.error e, w1)

/-- Method `updateGroupUsers`: one transaction running
`addNewUsersToGroup` then `deleteOldUsersFromGroup`, both against the
transaction handle. -/
def updateGroupUsers (groupId : Nat) (newUsers : List IGroupUserModel)
    (deletableUsers : List IGroupUser) (userName : String) (w : World) :
    Except DBError Unit × World :=
  transaction (updateGroupUsersTx groupId newUsers deletableUsers userName) w

end GroupStore

/-! Helper lemmas about the gateway primitives. -/

/-- A successful statement ran its SQL function on the database, and
consumed exactly one fault-schedule entry. -/
theorem statement_ok {α} {f : DB → Except DBError (α × DB)} {w : World}
    {a : α} {w' : World} (h : statement f w = (Except.ok a, w')) :
    f w.db = Except.ok (a, w'.db) ∧ w'.faults = w.faults.tail := by
  unfold statement at h
  split at h
  · simp at h
  · cases hf : f w.db with
    | error e => rw [hf] at h; simp at h
    | ok p =>
      obtain ⟨a', db'⟩ := p
      rw [hf] at h
      simp only [Prod.mk.injEq, Except.ok.injEq] at h
      obtain ⟨ha, hw⟩ := h
      subst ha
      subst hw
      exact ⟨rfl, rfl⟩

/-- A failed statement leaves the database untouched and consumed exactly
one fault-schedule entry. -/
theorem statement_error {α} {f : DB → Except DBError (α × DB)} {w : World}
    {e : DBError} {w' : World}
    (h : statement f w = (Except.error e, w')) :
    w'.db = w.db ∧ w'.faults = w.faults.tail := by
  unfold statement at h
  split at h
  · simp only [Prod.mk.injEq] at h
    obtain ⟨_, hw⟩ := h
    subst hw
    exact ⟨rfl, rfl⟩
  · cases hf : f w.db with
    | error e' =>
      rw [hf] at h
      simp only [Prod.mk.injEq] at h
      obtain ⟨_, hw⟩ := h
      subst hw
      exact ⟨rfl, rfl⟩
    | ok p =>
      obtain ⟨a', db'⟩ := p
      rw [hf] at h
      simp at h

/-- With a healthy gateway (no scheduled fault), a statement just runs its
SQL function. -/
theorem statement_run {α} {f : DB → Except DBError (α × DB)} {w : World}
    (hfault : w.faults.head? ≠ some false) :
    statement f w =
      match f w.db with
      | .ok (a, db') => (.ok a, ⟨db', w.faults.tail⟩)
      | .error e => (.error e, ⟨w.db, w.faults.tail⟩) := by
  unfold statement
  split
  · rename_i hif
    exact absurd (by simpa using hif) hfault
  · rfl

/-- A successful batch insert passed the constraint check and appended
exactly the mapped rows. -/
theorem addNewUsersToGroup_ok {groupId : Nat} {users : List IGroupUserModel}
    {userName : String} {w w' : World}
    (h : GroupStore.addNewUsersToGroup groupId users userName w
          = (Except.ok (), w')) :
    guInsertOk w.db (GroupStore.addRows groupId users userName) = true
    ∧ w'.db = { w.db with groupUser :=
        w.db.groupUser ++ GroupStore.addRows groupId users userName }
    ∧ w'.faults = w.faults.tail := by
  unfold GroupStore.addNewUsersToGroup at h
  obtain ⟨hf, hft⟩ := statement_ok h
  split at hf
  · rename_i hguard
    simp only [Except.ok.injEq, Prod.mk.injEq] at hf
    obtain ⟨-, hdb⟩ := hf
    exact ⟨hguard, hdb.symm, hft⟩
  · simp at hf

/-- A successful batch delete filtered out exactly the rows whose
(group, user) pair occurs in the removal list. -/
theorem deleteOldUsersFromGroup_ok {deletableUsers : List IGroupUser}
    {w w' : World}
    (h : GroupStore.deleteOldUsersFromGroup deletableUsers w
          = (Except.ok (), w')) :
    w'.db = { w.db with groupUser := w.db.groupUser.filter fun r =>
        !((deletableUsers.map fun user => (user.groupId, user.userId)).contains
            (r.group_id, r.user_id)) }
    ∧ w'.faults = w.faults.tail := by
  unfold GroupStore.deleteOldUsersFromGroup at h
  obtain ⟨hf, hft⟩ := statement_ok h
  simp only [Except.ok.injEq, Prod.mk.injEq] at hf
  obtain ⟨-, hdb⟩ := hf
  exact ⟨hdb.symm, hft⟩

/-- A successful reconciliation ran the insert then the delete: the final
association table is the old one extended by the mapped add rows, then
filtered by the removal pairs; the other tables are untouched and exactly
two statements were issued. -/
theorem updateGroupUsers_ok {groupId : Nat} {newUsers : List IGroupUserModel}
    {deletableUsers : List IGroupUser} {userName : String} {w w' : World}
    (h : GroupStore.updateGroupUsers groupId newUsers deletableUsers userName w
          = (Except.ok (), w')) :
    guInsertOk w.db (GroupStore.addRows groupId newUsers userName) = true
    ∧ w'.db = { w.db with
                  groupUser := List.filter
                    (fun r =>
                      !((deletableUsers.map fun user =>
                          (user.groupId, user.userId)).contains
                            (r.group_id, r.user_id)))
                    (w.db.groupUser
                      ++ GroupStore.addRows groupId newUsers userName) }
    ∧ w'.faults = w.faults.tail.tail := by
  unfold GroupStore.updateGroupUsers transaction GroupStore.updateGroupUsersTx
    at h
  rcases hadd : GroupStore.addNewUsersToGroup groupId newUsers userName w
    with ⟨r1, w1⟩
  rw [hadd] at h
  cases r1 with
  | error e => simp at h
  | ok u =>
    obtain ⟨⟩ := u
    dsimp only at h
    rcases hdel : GroupStore.deleteOldUsersFromGroup deletableUsers w1
      with ⟨r2, w2⟩
    rw [hdel] at h
    cases r2 with
    | error e => simp at h
    | ok u2 =>
      obtain ⟨⟩ := u2
      simp only [Prod.mk.injEq] at h
      obtain ⟨-, hw⟩ := h
      subst hw
      obtain ⟨hguard, hdb1, hft1⟩ := addNewUsersToGroup_ok hadd
      obtain ⟨hdb2, hft2⟩ := deleteOldUsersFromGroup_ok hdel
      refine ⟨hguard, ?_, ?_⟩
      · rw [hdb2, hdb1]
      · rw [hft2, hft1]

/-- A failed transaction rolls the database back to its entry state. -/
theorem transaction_rollback {α} {body : World → Except DBError α × World}
    {w : World} {e : DBError} {w' : World}
    (h : transaction body w = (Except.error e, w')) : w'.db = w.db := by
  unfold transaction at h
  rcases hb : body w with ⟨r, w₁⟩
  rw [hb] at h
  cases r with
  | ok a => simp at h
  | error e' =>
    simp only [Prod.mk.injEq] at h
    obtain ⟨_, hw⟩ := h
    subst hw
    rfl

/-- A successful create appended one fresh-identifier row carrying only
the name and description of the input, and returned it as a `Group`. -/
theorem create_ok {g : IStoreGroup} {w w' : World} {grp : Group}
    (h : GroupStore.create g w = (Except.ok grp, w')) :
    grp = ⟨w.db.nextId, g.name, g.description, none, none⟩
    ∧ w'.db = { w.db with
          groups := w.db.groups
            ++ [⟨w.db.nextId, g.name, g.description, none, none⟩],
          nextId := w.db.nextId + 1 }
    ∧ w'.faults = w.faults.tail := by
  unfold GroupStore.create at h
  rcases hs : statement (GroupStore.createStmt g) w with ⟨res, w₂⟩
  rw [hs] at h
  cases res with
  | error e => simp at h
  | ok rows =>
    simp only [Prod.mk.injEq] at h
    obtain ⟨hrow, hw⟩ := h
    subst hw
    obtain ⟨hf, hft⟩ := statement_ok hs
    unfold GroupStore.createStmt at hf
    split at hf
    · simp at hf
    · simp only [Except.ok.injEq, Prod.mk.injEq] at hf
      obtain ⟨hrows, hdb⟩ := hf
      subst hrows
      unfold rowToGroup at hrow
      simp only [List.head?, Except.ok.injEq] at hrow
      exact ⟨hrow.symm, hdb.symm, hft⟩

/-- Pair-list `contains` agrees with membership. -/
theorem pair_contains_iff (ps : List (Nat × Nat)) (p : Nat × Nat) :
    ps.contains p = true ↔ p ∈ ps := by
  simp [List.contains]

/-! Claim theorems. -/

/-- C1: `updateGroupUsers` (reconcile) is atomic — it runs the batch insert
of `newUsers` and the batch delete of `deletableUsers` inside one
transaction, and if any step fails the transaction rolls back, so after a
failed call no row from the add step remains persisted and no membership
change from either step is observable. -/
theorem updateGroupUsers_atomic (groupId : Nat)
    (newUsers : List IGroupUserModel) (deletableUsers : List IGroupUser)
    (userName : String) (w : World) (e : DBError) (w' : World)
    (h : GroupStore.updateGroupUsers groupId newUsers deletableUsers userName w
          = (Except.error e, w')) :
    w'.db = w.db := by
  unfold GroupStore.updateGroupUsers at h
  exact transaction_rollback h

/-- Witness for C1: a gateway failure on the delete statement, after the
insert statement succeeded, leaves the database exactly as it was. -/
theorem updateGroupUsers_atomic_witness :
    GroupStore.updateGroupUsers 1 [⟨⟨11⟩, "owner"⟩] [⟨1, 10, "member"⟩] "sys"
        ⟨⟨[⟨1, "admins", none, none, none⟩], [], [10, 11], 2⟩, [true, false]⟩
      = (Except.error DBError.connectivity,
          ⟨⟨[⟨1, "admins", none, none, none⟩], [], [10, 11], 2⟩, []⟩)
    ∧ (⟨⟨[⟨1, "admins", none, none, none⟩], [], [10, 11], 2⟩, []⟩ : World).db
      = (⟨⟨[⟨1, "admins", none, none, none⟩], [], [10, 11], 2⟩,
          [true, false]⟩ : World).db :=
  ⟨rfl,
   updateGroupUsers_atomic 1 [⟨⟨11⟩, "owner"⟩] [⟨1, 10, "member"⟩] "sys"
     ⟨⟨[⟨1, "admins", none, none, none⟩], [], [10, 11], 2⟩, [true, false]⟩
     DBError.connectivity
     ⟨⟨[⟨1, "admins", none, none, none⟩], [], [10, 11], 2⟩, []⟩
     rfl⟩

/-- C2: for disjoint add and remove sets, after a successful
`updateGroupUsers` every add entry is present in the membership set with
its specified type, and every remove pair is absent. -/
theorem updateGroupUsers_reconcile_post (groupId : Nat)
    (A : List IGroupUserModel) (R : List IGroupUser) (userName : String)
    (w w' : World)
    (hdisj : ∀ a ∈ A, ∀ r ∈ R, ¬(r.groupId = groupId ∧ r.userId = a.user.id))
    (h : GroupStore.updateGroupUsers groupId A R userName w
          = (Except.ok (), w')) :
    (∀ a ∈ A, ∃ row ∈ w'.db.groupUser,
        row.group_id = groupId ∧ row.user_id = a.user.id ∧ row.type = a.type)
    ∧ ∀ r ∈ R, ∀ row ∈ w'.db.groupUser,
        ¬(row.group_id = r.groupId ∧ row.user_id = r.userId) := by
  obtain ⟨-, hdb, -⟩ := updateGroupUsers_ok h
  rw [hdb]
  dsimp only
  constructor
  · intro a ha
    refine ⟨⟨groupId, a.user.id, a.type, userName⟩, ?_, rfl, rfl, rfl⟩
    rw [List.mem_filter]
    constructor
    · have hmem : (⟨groupId, a.user.id, a.type, userName⟩ : GroupUserRow)
          ∈ GroupStore.addRows groupId A userName :=
        List.mem_map_of_mem
          (fun user => (⟨groupId, user.user.id, user.type, userName⟩ :
            GroupUserRow)) ha
      exact List.mem_append_right _ hmem
    · have hnot : ((groupId, a.user.id))
          ∉ R.map (fun user => (user.groupId, user.userId)) := by
        intro hmem
        obtain ⟨r, hr, hpair⟩ := List.mem_map.1 hmem
        rw [Prod.mk.injEq] at hpair
        exact hdisj a ha r hr ⟨hpair.1, hpair.2⟩
      simpa [List.contains] using hnot
  · intro r hr row hrow hpair
    rw [List.mem_filter] at hrow
    have hcontains : (R.map fun user => (user.groupId, user.userId)).contains
        (row.group_id, row.user_id) = true := by
      have : (row.group_id, row.user_id)
          ∈ R.map fun user => (user.groupId, user.userId) := by
        refine List.mem_map.2 ⟨r, hr, ?_⟩
        rw [Prod.mk.injEq]
        exact ⟨hpair.1.symm, hpair.2.symm⟩
      simpa [List.contains] using this
    rw [hcontains] at hrow
    simp at hrow

/-- Witness for C2: the spec's end-to-end scenario — group 1 with member
(1, 10); reconcile 1 with add = [(11, owner)], remove = [(1, 10)]; the
post-state membership holds (1, 11, owner) and no (1, 10) row. -/
theorem updateGroupUsers_reconcile_post_witness :
    (∀ a ∈ [(⟨⟨11⟩, "owner"⟩ : IGroupUserModel)],
      ∃ row ∈ (⟨⟨[⟨1, "admins", none, none, none⟩], [⟨1, 11, "owner", "sys"⟩],
            [10, 11], 2⟩, []⟩ : World).db.groupUser,
        row.group_id = 1 ∧ row.user_id = a.user.id ∧ row.type = a.type)
    ∧ ∀ r ∈ [(⟨1, 10, "member"⟩ : IGroupUser)],
        ∀ row ∈ (⟨⟨[⟨1, "admins", none, none, none⟩], [⟨1, 11, "owner", "sys"⟩],
            [10, 11], 2⟩, []⟩ : World).db.groupUser,
          ¬(row.group_id = r.groupId ∧ row.user_id = r.userId) :=
  updateGroupUsers_reconcile_post 1 [⟨⟨11⟩, "owner"⟩] [⟨1, 10, "member"⟩] "sys"
    ⟨⟨[⟨1, "admins", none, none, none⟩], [⟨1, 10, "member", "init"⟩],
        [10, 11], 2⟩, []⟩
    ⟨⟨[⟨1, "admins", none, none, none⟩], [⟨1, 11, "owner", "sys"⟩],
        [10, 11], 2⟩, []⟩
    (by decide) rfl

/-- C3: `updateGroupUsers` is not idempotent — with a healthy gateway and
a non-empty add set (disjoint from the remove set), a second call with the
same arguments attempts to insert the same (group, user) pairs again and
fails with a constraint violation, since membership pairs are unique. -/
theorem updateGroupUsers_not_idempotent (groupId : Nat)
    (A : List IGroupUserModel) (R : List IGroupUser) (userName : String)
    (w w₁ : World)
    (hA : A ≠ [])
    (hdisj : ∀ a ∈ A, ∀ r ∈ R, ¬(r.groupId = groupId ∧ r.userId = a.user.id))
    (hfaults : w.faults = [])
    (h1 : GroupStore.updateGroupUsers groupId A R userName w
          = (Except.ok (), w₁)) :
    (GroupStore.updateGroupUsers groupId A R userName w₁).1
      = Except.error DBError.constraintViolation := by
  obtain ⟨-, hdb, hft⟩ := updateGroupUsers_ok h1
  rw [hfaults] at hft
  obtain ⟨a₀, A', rfl⟩ := List.exists_cons_of_ne_nil hA
  have hrowmem : (⟨groupId, a₀.user.id, a₀.type, userName⟩ : GroupUserRow)
      ∈ w₁.db.groupUser := by
    rw [hdb]
    dsimp only
    rw [List.mem_filter]
    constructor
    · refine List.mem_append_right _ ?_
      exact List.mem_map_of_mem
        (fun user => (⟨groupId, user.user.id, user.type, userName⟩ :
          GroupUserRow)) (List.mem_cons_self a₀ A')
    · have hnot : ((groupId, a₀.user.id))
          ∉ R.map (fun user => (user.groupId, user.userId)) := by
        intro hmem
        obtain ⟨r, hr, hpair⟩ := List.mem_map.1 hmem
        rw [Prod.mk.injEq] at hpair
        exact hdisj a₀ (List.mem_cons_self a₀ A') r hr ⟨hpair.1, hpair.2⟩
      simpa [List.contains] using hnot
  have hguard : guInsertOk w₁.db
      (GroupStore.addRows groupId (a₀ :: A') userName) = false := by
    rw [Bool.eq_false_iff]
    intro htrue
    unfold guInsertOk at htrue
    rw [Bool.and_eq_true] at htrue
    obtain ⟨hall, -⟩ := htrue
    rw [List.all_eq_true] at hall
    have hmem₀ : (⟨groupId, a₀.user.id, a₀.type, userName⟩ : GroupUserRow)
        ∈ GroupStore.addRows groupId (a₀ :: A') userName :=
      List.mem_map_of_mem
        (fun user => (⟨groupId, user.user.id, user.type, userName⟩ :
          GroupUserRow)) (List.mem_cons_self a₀ A')
    have hchecks := hall _ hmem₀
    dsimp only at hchecks
    rw [Bool.and_eq_true, Bool.and_eq_true] at hchecks
    obtain ⟨⟨-, -⟩, hfree⟩ := hchecks
    have hany : (w₁.db.groupUser.any fun e =>
        e.group_id == groupId && e.user_id == a₀.user.id) = true :=
      List.any_eq_true.2 ⟨_, hrowmem, by simp⟩
    rw [hany] at hfree
    simp at hfree
  have hfault₁ : w₁.faults.head? ≠ some false := by rw [hft]; simp
  have hadd : GroupStore.addNewUsersToGroup groupId (a₀ :: A') userName w₁
      = (Except.error DBError.constraintViolation,
          ⟨w₁.db, w₁.faults.tail⟩) := by
    unfold GroupStore.addNewUsersToGroup
    rw [statement_run hfault₁]
    rw [hguard]
    rfl
  unfold GroupStore.updateGroupUsers transaction GroupStore.updateGroupUsersTx
  rw [hadd]

/-- Witness for C3: reconciling group 1 with add = [(11, owner)] and
remove = [(1, 10)] twice — the first call succeeds, the second fails with
a constraint violation. -/
theorem updateGroupUsers_not_idempotent_witness :
    (GroupStore.updateGroupUsers 1 [⟨⟨11⟩, "owner"⟩] [⟨1, 10, "member"⟩] "sys"
        ⟨⟨[⟨1, "admins", none, none, none⟩], [⟨1, 11, "owner", "sys"⟩],
            [10, 11], 2⟩, []⟩).1
      = Except.error DBError.constraintViolation :=
  updateGroupUsers_not_idempotent 1 [⟨⟨11⟩, "owner"⟩] [⟨1, 10, "member"⟩]
    "sys"
    ⟨⟨[⟨1, "admins", none, none, none⟩], [], [10, 11], 2⟩, []⟩
    ⟨⟨[⟨1, "admins", none, none, none⟩], [⟨1, 11, "owner", "sys"⟩],
        [10, 11], 2⟩, []⟩
    (by decide) (by decide) rfl rfl

/-- C4: with a healthy gateway, for every group identifier with no row in
the `groups` table, `get` fails with the NotFound error and `exists`
returns `false`; in particular `get` never returns a value for an absent
identifier. -/
theorem get_absent_notFound (id : Nat) (w : World)
    (hfault : w.faults.head? ≠ some false)
    (habs : ∀ r ∈ w.db.groups, r.id ≠ id) :
    (GroupStore.get id w).1 = Except.error (DBError.notFound "No group found")
    ∧ (GroupStore.«exists» id w).1 = Except.ok false := by
  constructor
  · have hfind : w.db.groups.find? (fun r => r.id == id) = none :=
      List.find?_eq_none.2 (fun r hr => by simpa using habs r hr)
    unfold GroupStore.get
    rw [statement_run hfault]
    unfold GroupStore.getStmt
    rw [hfind]
    rfl
  · have hany : (w.db.groups.any fun r => r.id == id) = false := by
      rw [Bool.eq_false_iff]
      intro htrue
      obtain ⟨x, hx, hpx⟩ := List.any_eq_true.1 htrue
      exact habs x hx (by simpa using hpx)
    unfold GroupStore.«exists»
    rw [statement_run hfault]
    rw [hany]

/-- Witness for C4: identifier 99 has no row, so `get` is NotFound and
`exists` is false. -/
theorem get_absent_notFound_witness :
    (GroupStore.get 99
        ⟨⟨[⟨1, "admins", none, none, none⟩], [], [10], 2⟩, []⟩).1
      = Except.error (DBError.notFound "No group found")
    ∧ (GroupStore.«exists» 99
        ⟨⟨[⟨1, "admins", none, none, none⟩], [], [10], 2⟩, []⟩).1
      = Except.ok false :=
  get_absent_notFound 99
    ⟨⟨[⟨1, "admins", none, none, none⟩], [], [10], 2⟩, []⟩
    (by decide) (by decide)

/-- C5: round-trip through `create` — when the database assigns fresh
identifiers and `create g` succeeds, `get` at the returned identifier
returns the very group `create` returned, whose name and description are
those of `g`. -/
theorem create_get_roundtrip (g : IStoreGroup) (w w' : World) (grp : Group)
    (hids : ∀ r ∈ w.db.groups, r.id < w.db.nextId)
    (hfault : w'.faults.head? ≠ some false)
    (h : GroupStore.create g w = (Except.ok grp, w')) :
    (GroupStore.get grp.id w').1 = Except.ok grp
    ∧ grp.name = g.name ∧ grp.description = g.description := by
  obtain ⟨hgrp, hdb, -⟩ := create_ok h
  subst hgrp
  refine ⟨?_, rfl, rfl⟩
  have hfind : w'.db.groups.find? (fun r => r.id == w.db.nextId)
      = some ⟨w.db.nextId, g.name, g.description, none, none⟩ := by
    rw [hdb]
    dsimp only
    rw [List.find?_append]
    have hnone : w.db.groups.find? (fun r => r.id == w.db.nextId) = none :=
      List.find?_eq_none.2 (fun r hr => by
        simp only [beq_iff_eq]
        exact Nat.ne_of_lt (hids r hr))
    rw [hnone]
    simp
  unfold GroupStore.get
  rw [statement_run hfault]
  unfold GroupStore.getStmt
  dsimp only
  rw [hfind]
  rfl

/-- Witness for C5: creating "admins" in a database whose next identifier
is 2, then fetching identifier 2, returns the created group. -/
theorem create_get_roundtrip_witness :
    (GroupStore.get 2
        ⟨⟨[⟨1, "other", none, none, none⟩,
            ⟨2, "admins", some "d", none, none⟩], [], [10], 3⟩, []⟩).1
      = Except.ok ⟨2, "admins", some "d", none, none⟩
    ∧ ("admins" : String) = "admins" ∧ (some "d" : Option String) = some "d" :=
  create_get_roundtrip ⟨"admins", some "d", some "alice"⟩
    ⟨⟨[⟨1, "other", none, none, none⟩], [], [10], 2⟩, []⟩
    ⟨⟨[⟨1, "other", none, none, none⟩,
        ⟨2, "admins", some "d", none, none⟩], [], [10], 3⟩, []⟩
    ⟨2, "admins", some "d", none, none⟩
    (by decide) (by decide) rfl

/-- C6: a successful `addNewUsersToGroup` appends exactly one association
row per entry of `usersToAdd`, each carrying the target `groupId`, the
entry's user identifier and membership type, stamped with the actor as
`created_by` — issued as one single batched insert statement (exactly one
fault-schedule entry is consumed), touching no other table. -/
theorem addNewUsersToGroup_inserts_rows (groupId : Nat)
    (usersToAdd : List IGroupUserModel) (userName : String) (w w' : World)
    (h : GroupStore.addNewUsersToGroup groupId usersToAdd userName w
          = (Except.ok (), w')) :
    w'.db.groupUser = w.db.groupUser
        ++ usersToAdd.map (fun user =>
            (⟨groupId, user.user.id, user.type, userName⟩ : GroupUserRow))
    ∧ w'.db.groups = w.db.groups
    ∧ w'.db.users = w.db.users
    ∧ w'.faults = w.faults.tail := by
  obtain ⟨-, hdb, hft⟩ := addNewUsersToGroup_ok h
  rw [hdb]
  exact ⟨rfl, rfl, rfl, hft⟩

/-- Witness for C6: adding users 10 and 11 to group 1 appends exactly the
two stamped rows. -/
theorem addNewUsersToGroup_inserts_rows_witness :
    (⟨⟨[⟨1, "admins", none, none, none⟩],
        [⟨1, 10, "member", "sys"⟩, ⟨1, 11, "owner", "sys"⟩],
        [10, 11], 2⟩, []⟩ : World).db.groupUser
      = [] ++ [⟨⟨10⟩, "member"⟩, (⟨⟨11⟩, "owner"⟩ : IGroupUserModel)].map
          (fun user =>
            (⟨1, user.user.id, user.type, "sys"⟩ : GroupUserRow))
    ∧ (⟨⟨[⟨1, "admins", none, none, none⟩],
        [⟨1, 10, "member", "sys"⟩, ⟨1, 11, "owner", "sys"⟩],
        [10, 11], 2⟩, []⟩ : World).db.groups
      = [⟨1, "admins", none, none, none⟩]
    ∧ (⟨⟨[⟨1, "admins", none, none, none⟩],
        [⟨1, 10, "member", "sys"⟩, ⟨1, 11, "owner", "sys"⟩],
        [10, 11], 2⟩, []⟩ : World).db.users = [10, 11]
    ∧ ([] : List Bool) = ([] : List Bool).tail :=
  addNewUsersToGroup_inserts_rows 1 [⟨⟨10⟩, "member"⟩, ⟨⟨11⟩, "owner"⟩] "sys"
    ⟨⟨[⟨1, "admins", none, none, none⟩], [], [10, 11], 2⟩, []⟩
    ⟨⟨[⟨1, "admins", none, none, none⟩],
        [⟨1, 10, "member", "sys"⟩, ⟨1, 11, "owner", "sys"⟩],
        [10, 11], 2⟩, []⟩
    rfl

/-- C7: a successful `deleteOldUsersFromGroup` removes, in one single
set-membership delete statement (one fault-schedule entry consumed),
exactly the association rows whose (groupId, userId) pair matches some
entry of `deletableUsers` — with no constraint tying those entries to any
particular group, so entries naming other groups are honoured too. -/
theorem deleteOldUsersFromGroup_deletes_pairs
    (deletableUsers : List IGroupUser) (w w' : World)
    (h : GroupStore.deleteOldUsersFromGroup deletableUsers w
          = (Except.ok (), w')) :
    (∀ row : GroupUserRow, row ∈ w'.db.groupUser ↔ row ∈ w.db.groupUser
        ∧ ∀ u ∈ deletableUsers,
            ¬(row.group_id = u.groupId ∧ row.user_id = u.userId))
    ∧ w'.db.groups = w.db.groups
    ∧ w'.db.users = w.db.users
    ∧ w'.faults = w.faults.tail := by
  obtain ⟨hdb, hft⟩ := deleteOldUsersFromGroup_ok h
  rw [hdb]
  refine ⟨?_, rfl, rfl, hft⟩
  intro row
  dsimp only
  rw [List.mem_filter]
  constructor
  · rintro ⟨hmem, hp⟩
    refine ⟨hmem, ?_⟩
    rintro u hu ⟨h1, h2⟩
    rw [Bool.not_eq_true'] at hp
    have hc : (deletableUsers.map fun user =>
        (user.groupId, user.userId)).contains (row.group_id, row.user_id)
          = true :=
      (pair_contains_iff _ _).2
        (List.mem_map.2 ⟨u, hu, by rw [h1, h2]⟩)
    rw [hc] at hp
    cases hp
  · rintro ⟨hmem, hnone⟩
    refine ⟨hmem, ?_⟩
    rw [Bool.not_eq_true', Bool.eq_false_iff]
    intro hc
    obtain ⟨u, hu, hpair⟩ := List.mem_map.1 ((pair_contains_iff _ _).1 hc)
    rw [Prod.mk.injEq] at hpair
    exact hnone u hu ⟨hpair.1.symm, hpair.2.symm⟩

/-- Witness for C7: a removal list naming pairs in two different groups
(1, 10) and (2, 20) deletes both rows and keeps (1, 11). -/
theorem deleteOldUsersFromGroup_deletes_pairs_witness :
    (∀ row : GroupUserRow,
        row ∈ (⟨⟨[], [⟨1, 11, "member", "a"⟩], [10, 11, 20], 3⟩, []⟩ :
            World).db.groupUser
          ↔ row ∈ (⟨⟨[], [⟨1, 10, "member", "a"⟩, ⟨2, 20, "owner", "b"⟩,
                ⟨1, 11, "member", "a"⟩], [10, 11, 20], 3⟩,
              []⟩ : World).db.groupUser
            ∧ ∀ u ∈ [(⟨1, 10, "member"⟩ : IGroupUser), ⟨2, 20, "owner"⟩],
                ¬(row.group_id = u.groupId ∧ row.user_id = u.userId))
    ∧ (⟨⟨[], [⟨1, 11, "member", "a"⟩], [10, 11, 20], 3⟩, []⟩ :
          World).db.groups = []
    ∧ (⟨⟨[], [⟨1, 11, "member", "a"⟩], [10, 11, 20], 3⟩, []⟩ :
          World).db.users = [10, 11, 20]
    ∧ ([] : List Bool) = ([] : List Bool).tail :=
  deleteOldUsersFromGroup_deletes_pairs
    [⟨1, 10, "member"⟩, ⟨2, 20, "owner"⟩]
    ⟨⟨[], [⟨1, 10, "member", "a"⟩, ⟨2, 20, "owner", "b"⟩,
        ⟨1, 11, "member", "a"⟩], [10, 11, 20], 3⟩, []⟩
    ⟨⟨[], [⟨1, 11, "member", "a"⟩], [10, 11, 20], 3⟩, []⟩
    rfl

/-- C8: frame condition for `updateGroupUsers` — a successful call leaves
the `groups` table, the `users` table and the next identifier unchanged,
and every association row whose (groupId, userId) pair is in neither the
add set nor the remove set is untouched. -/
theorem updateGroupUsers_frame (groupId : Nat) (A : List IGroupUserModel)
    (R : List IGroupUser) (userName : String) (w w' : World)
    (h : GroupStore.updateGroupUsers groupId A R userName w
          = (Except.ok (), w')) :
    w'.db.groups = w.db.groups
    ∧ w'.db.users = w.db.users
    ∧ w'.db.nextId = w.db.nextId
    ∧ ∀ row : GroupUserRow,
        (∀ a ∈ A, ¬(row.group_id = groupId ∧ row.user_id = a.user.id)) →
        (∀ r ∈ R, ¬(row.group_id = r.groupId ∧ row.user_id = r.userId)) →
        (row ∈ w'.db.groupUser ↔ row ∈ w.db.groupUser) := by
  obtain ⟨-, hdb, -⟩ := updateGroupUsers_ok h
  rw [hdb]
  refine ⟨rfl, rfl, rfl, ?_⟩
  intro row hA hR
  dsimp only
  rw [List.mem_filter, List.mem_append]
  constructor
  · rintro ⟨hmem | hmem, -⟩
    · exact hmem
    · obtain ⟨a, ha, hrow⟩ := List.mem_map.1 hmem
      exfalso
      apply hA a ha
      rw [← hrow]
      exact ⟨rfl, rfl⟩
  · intro hmem
    refine ⟨Or.inl hmem, ?_⟩
    rw [Bool.not_eq_true', Bool.eq_false_iff]
    intro hc
    obtain ⟨r, hr, hpair⟩ := List.mem_map.1 ((pair_contains_iff _ _).1 hc)
    rw [Prod.mk.injEq] at hpair
    exact hR r hr ⟨hpair.1.symm, hpair.2.symm⟩

/-- Witness for C8: reconciling group 1 (add user 11, remove user 10)
leaves the groups and users tables and the unrelated membership row
(2, 20) unchanged. -/
theorem updateGroupUsers_frame_witness :
    (⟨⟨[⟨1, "admins", none, none, none⟩],
        [⟨2, 20, "member", "b"⟩, ⟨1, 11, "owner", "sys"⟩],
        [10, 11, 20], 2⟩, []⟩ : World).db.groups
      = [⟨1, "admins", none, none, none⟩]
    ∧ (⟨⟨[⟨1, "admins", none, none, none⟩],
        [⟨2, 20, "member", "b"⟩, ⟨1, 11, "owner", "sys"⟩],
        [10, 11, 20], 2⟩, []⟩ : World).db.users = [10, 11, 20]
    ∧ (2 : Nat) = 2
    ∧ ∀ row : GroupUserRow,
        (∀ a ∈ [(⟨⟨11⟩, "owner"⟩ : IGroupUserModel)],
          ¬(row.group_id = 1 ∧ row.user_id = a.user.id)) →
        (∀ r ∈ [(⟨1, 10, "member"⟩ : IGroupUser)],
          ¬(row.group_id = r.groupId ∧ row.user_id = r.userId)) →
        (row ∈ (⟨⟨[⟨1, "admins", none, none, none⟩],
            [⟨2, 20, "member", "b"⟩, ⟨1, 11, "owner", "sys"⟩],
            [10, 11, 20], 2⟩, []⟩ : World).db.groupUser
          ↔ row ∈ (⟨⟨[⟨1, "admins", none, none, none⟩],
              [⟨2, 20, "member", "b"⟩, ⟨1, 10, "member", "a"⟩],
              [10, 11, 20], 2⟩, []⟩ : World).db.groupUser) := by
  have h := updateGroupUsers_frame 1 [⟨⟨11⟩, "owner"⟩] [⟨1, 10, "member"⟩]
    "sys"
    ⟨⟨[⟨1, "admins", none, none, none⟩],
        [⟨2, 20, "member", "b"⟩, ⟨1, 10, "member", "a"⟩],
        [10, 11, 20], 2⟩, []⟩
    ⟨⟨[⟨1, "admins", none, none, none⟩],
        [⟨2, 20, "member", "b"⟩, ⟨1, 11, "owner", "sys"⟩],
        [10, 11, 20], 2⟩, []⟩
    rfl
  exact ⟨h.1, h.2.1, h.2.2.1, h.2.2.2⟩

/-- C9: `create` persists only the name and description of its input —
two inputs agreeing on name and description yield the same result
whatever their creator identifiers, and the persisted row (and the
returned group) carry no creator. -/
theorem create_ignores_createdBy (g₁ g₂ : IStoreGroup) (w w' : World)
    (grp : Group)
    (hname : g₂.name = g₁.name) (hdesc : g₂.description = g₁.description)
    (h : GroupStore.create g₁ w = (Except.ok grp, w')) :
    GroupStore.create g₂ w = (Except.ok grp, w')
    ∧ grp.createdBy = none
    ∧ w'.db.groups = w.db.groups
        ++ [⟨w.db.nextId, g₁.name, g₁.description, none, none⟩] := by
  have hsame : GroupStore.create g₂ w = GroupStore.create g₁ w := by
    unfold GroupStore.create GroupStore.createStmt groupToRow
    rw [hname, hdesc]
  obtain ⟨hgrp, hdb, -⟩ := create_ok h
  refine ⟨hsame.trans h, ?_, ?_⟩
  · rw [hgrp]
  · rw [hdb]

/-- Witness for C9: creating "admins" as "alice" and as "bob" produce the
same persisted state; the stored row and returned group have no
creator. -/
theorem create_ignores_createdBy_witness :
    GroupStore.create ⟨"admins", some "d", some "bob"⟩
        ⟨⟨[], [], [], 1⟩, []⟩
      = (Except.ok ⟨1, "admins", some "d", none, none⟩,
          ⟨⟨[⟨1, "admins", some "d", none, none⟩], [], [], 2⟩, []⟩)
    ∧ (⟨1, "admins", some "d", none, none⟩ : Group).createdBy = none
    ∧ (⟨⟨[⟨1, "admins", some "d", none, none⟩], [], [], 2⟩, []⟩ :
          World).db.groups
      = [] ++ [⟨1, "admins", some "d", none, none⟩] :=
  create_ignores_createdBy ⟨"admins", some "d", some "alice"⟩
    ⟨"admins", some "d", some "bob"⟩
    ⟨⟨[], [], [], 1⟩, []⟩
    ⟨⟨[⟨1, "admins", some "d", none, none⟩], [], [], 2⟩, []⟩
    ⟨1, "admins", some "d", none, none⟩
    rfl rfl rfl

/-- C10: with a healthy gateway, `update(group)` fails with the NotFound
error when no `groups` row has `group.id` (the UPDATE returns no rows and
`rowToGroup` throws on the absent row); when a matching row exists,
`update` returns the group carrying the new name and description. -/
theorem update_notFound_or_updates (group : IGroupModel) (w : World)
    (hfault : w.faults.head? ≠ some false) :
    ((∀ r ∈ w.db.groups, r.id ≠ group.id) →
      (GroupStore.update group w).1
        = Except.error (DBError.notFound "No group found"))
    ∧ ∀ r₀ ∈ w.db.groups, r₀.id = group.id →
        ∃ grp, (GroupStore.update group w).1 = Except.ok grp
          ∧ grp.id = group.id ∧ grp.name = group.name
          ∧ grp.description = group.description := by
  constructor
  · intro habs
    unfold GroupStore.update
    rw [statement_run hfault]
    unfold GroupStore.updateStmt
    have hfil : ((w.db.groups.map fun r =>
        if r.id == group.id then
          { r with name := group.name, description := group.description }
        else r).filter fun r => r.id == group.id) = [] := by
      rw [List.filter_eq_nil_iff]
      intro a ha
      obtain ⟨r, hr, hmap⟩ := List.mem_map.1 ha
      have hne : (r.id == group.id) = false := by
        simpa using habs r hr
      rw [hne] at hmap
      simp only [Bool.false_eq_true, if_false] at hmap
      subst hmap
      simpa using habs r hr
    rw [hfil]
    rfl
  · intro r₀ hr₀ hid
    have hc₀ : (r₀.id == group.id) = true := by simpa using hid
    unfold GroupStore.update
    rw [statement_run hfault]
    unfold GroupStore.updateStmt
    rcases hfil : ((w.db.groups.map fun r =>
        if r.id == group.id then
          { r with name := group.name, description := group.description }
        else r).filter fun r => r.id == group.id) with - | ⟨x, xs⟩
    · exfalso
      rw [List.filter_eq_nil_iff] at hfil
      refine hfil { r₀ with name := group.name, description := group.description } ?_ ?_
      · exact List.mem_map.2 ⟨r₀, hr₀, by simp [hc₀]⟩
      · simpa using hid
    · have hx : x ∈ ((w.db.groups.map fun r =>
          if r.id == group.id then
            { r with name := group.name, description := group.description }
          else r).filter fun r => r.id == group.id) := by
        rw [hfil]
        exact List.mem_cons_self x xs
      rw [List.mem_filter] at hx
      obtain ⟨hxmem, hxid⟩ := hx
      obtain ⟨r, hr, hmap⟩ := List.mem_map.1 hxmem
      have hmap' : (if (r.id == group.id) = true then { r with name := group.name, description := group.description } else r) = x := hmap
      refine ⟨⟨x.id, x.name, x.description, x.created_at, x.created_by⟩,
        ?_, ?_, ?_, ?_⟩
      · rw [hfil]
        rfl
      · simpa using hxid
      · by_cases hc : (r.id == group.id) = true
        · rw [if_pos hc] at hmap'
          rw [← hmap']
        · rw [if_neg (by simpa using hc)] at hmap'
          subst hmap'
          exact absurd hxid (by simpa using hc)
      · by_cases hc : (r.id == group.id) = true
        · rw [if_pos hc] at hmap'
          rw [← hmap']
        · rw [if_neg (by simpa using hc)] at hmap'
          subst hmap'
          exact absurd hxid (by simpa using hc)

/-- Witness for C10: updating identifier 2 in a store holding only
identifier 1 is NotFound; updating identifier 1 succeeds and returns the
new name and description. -/
theorem update_notFound_or_updates_witness :
    (GroupStore.update ⟨2, "new", none⟩
        ⟨⟨[⟨1, "old", some "x", none, none⟩], [], [], 2⟩, []⟩).1
      = Except.error (DBError.notFound "No group found")
    ∧ ∃ grp, (GroupStore.update ⟨1, "new", none⟩
        ⟨⟨[⟨1, "old", some "x", none, none⟩], [], [], 2⟩, []⟩).1
          = Except.ok grp
        ∧ grp.id = 1 ∧ grp.name = "new" ∧ grp.description = none :=
  ⟨(update_notFound_or_updates ⟨2, "new", none⟩
      ⟨⟨[⟨1, "old", some "x", none, none⟩], [], [], 2⟩, []⟩
      (by decide)).1 (by decide),
   (update_notFound_or_updates ⟨1, "new", none⟩
      ⟨⟨[⟨1, "old", some "x", none, none⟩], [], [], 2⟩, []⟩
      (by decide)).2 ⟨1, "old", some "x", none, none⟩ (by decide) rfl⟩

end Unleash
